import Mathlib

/-!
Verification of the agency managerial-dashboard core (shallow embedding).

The TypeScript source is embedded as executable Lean definitions:

* JavaScript `Date` objects constructed by the helpers are always local
  midnight, so a valid date is modelled as an integer day number (days
  since 1970-01-01; negative before).  `new Date(y, m, d)` normalizes
  out-of-range fields, which the model reproduces; an *Invalid Date*
  (from `NaN` components) is modelled as `none` in `Option Int`, and a
  `null` result is the outer `none` of `Option (Option Int)`.
* JavaScript numbers are modelled as rationals (`ℚ`): the claims are
  about the arithmetic the code performs, not about IEEE rounding.
* Strings are processed as their character lists.
-/

namespace Painel

/-! ### Character and string primitives -/

/-- Numeric value of a decimal digit character (`'0'` ↦ 0, …). -/
def charVal (c : Char) : Nat := c.toNat - 48

/-- The decimal digit character for `k` (meaningful for `k < 10`). -/
def digitChar (k : Nat) : Char := Char.ofNat (48 + k)

/-- Value of a run of decimal digit characters, most significant first. -/
def digitsVal (l : List Char) : Nat := l.foldl (fun acc c => acc * 10 + charVal c) 0

/-- Split a character list at every occurrence of `sep`
    (the semantics of JavaScript `String.prototype.split` with a
    one-character separator, on a non-empty string). -/
def splitOnChar : List Char → Char → List (List Char)
  | [], _ => [[]]
  | c :: cs, sep =>
    if c = sep then [] :: splitOnChar cs sep
    else
      match splitOnChar cs sep with
      | g :: gs => (c :: g) :: gs
      | [] => [[c]]

/-- JavaScript whitespace trim on both ends (ASCII whitespace suffices
    for the data handled here). -/
def trimWs (l : List Char) : List Char :=
  ((l.dropWhile Char.isWhitespace).reverse.dropWhile Char.isWhitespace).reverse

/-- `parseInt(s)` (radix 10): skip leading whitespace, optional sign,
    then the longest prefix of decimal digits; no digits gives `NaN`
    (modelled as `none`). -/
def parseDigitsPrefix (l : List Char) : Option Nat :=
  let ds := l.takeWhile Char.isDigit
  if ds = [] then none else some (digitsVal ds)

/-- JavaScript `parseInt` on a character list (decimal). -/
def jsParseInt (l : List Char) : Option Int :=
  let l1 := l.dropWhile Char.isWhitespace
  match l1 with
  | [] => none
  | c :: rest =>
    if c = '-' then (parseDigitsPrefix rest).map (fun n => -(n : Int))
    else if c = '+' then (parseDigitsPrefix rest).map (fun n => (n : Int))
    else (parseDigitsPrefix l1).map (fun n => (n : Int))

/-- Magnitude part of `parseFloat`: `digits* ('.' digits*)?`, requiring
    at least one digit; parsing stops at the first character that does
    not fit (exponents cannot occur in the cleaned currency strings the
    code feeds to `parseFloat`). -/
def parseFloatMag (l : List Char) : Option ℚ :=
  let ip := l.takeWhile Char.isDigit
  let rest := l.dropWhile Char.isDigit
  let fp := match rest with
            | c :: r => if c = '.' then r.takeWhile Char.isDigit else []
            | [] => []
  if ip = [] ∧ fp = [] then none
  else some ((digitsVal ip : ℚ) + (digitsVal fp : ℚ) / (10 : ℚ) ^ fp.length)

/-- JavaScript `parseFloat` on a character list (`none` = `NaN`). -/
def jsParseFloat (l : List Char) : Option ℚ :=
  let l1 := l.dropWhile Char.isWhitespace
  match l1 with
  | [] => none
  | c :: rest =>
    if c = '-' then (parseFloatMag rest).map (fun q => -q)
    else if c = '+' then parseFloatMag rest
    else parseFloatMag l1

/-! ### The JavaScript local-date model -/

/-- Day number of the civil date `y-m-d` relative to 1970-01-01
    (Howard Hinnant's `days_from_civil`; `m ∈ [1,12]`, `d` may be any
    integer and extrapolates linearly). -/
def daysFromCivil (y m d : Int) : Int :=
  let y1 := if m ≤ 2 then y - 1 else y
  let era := y1.fdiv 400
  let yoe := y1 - era * 400
  let mp := if m ≤ 2 then m + 9 else m - 3
  let doy := (153 * mp + 2).fdiv 5 + d - 1
  let doe := yoe * 365 + yoe.fdiv 4 - yoe.fdiv 100 + doy
  era * 146097 + doe - 719468

/-- `new Date(y, m0, d)` (month `m0` is 0-based) as a day number:
    out-of-range months and days roll over exactly as in JavaScript,
    and integer years `0..99` are interpreted as `1900..1999`. -/
def jsMakeDayNum (y m0 d : Int) : Int :=
  let yr := if 0 ≤ y ∧ y ≤ 99 then y + 1900 else y
  let ym := yr + m0.fdiv 12
  let mn := m0.emod 12
  daysFromCivil ym (mn + 1) d

/-- `new Date(y, m0, d)` with possibly-`NaN` components: any `NaN`
    component gives an Invalid Date (`none`). -/
def jsNewDate : Option Int → Option Int → Option Int → Option Int
  | some y, some m0, some d => some (jsMakeDayNum y m0 d)
  | _, _, _ => none

/-- `Date.prototype.getDay`: 0 = Sunday … 6 = Saturday
    (day 0 = 1970-01-01 was a Thursday). -/
def jsWeekday (day : Int) : Int := (day + 4).emod 7

/-- `x < y` on possibly-invalid dates: any comparison against an
    Invalid Date is `NaN < …`, hence `false`. -/
def jsLtOpt : Option Int → Option Int → Bool
  | some x, some y => decide (x < y)
  | _, _ => false

/-! ### `src/utils/helpers.ts` -/

/-- `parseDate`: parse `"dd/mm/yyyy"` or `"yyyy-mm-dd"` into a local
    `Date`.  Result: `none` = `null`; `some none` = Invalid Date;
    `some (some n)` = the valid date with day number `n`.
    Mirrors the source: a string containing `'/'` that does not split
    into exactly three parts still falls through to the `'-'` branch. -/
def parseDate (s : String) : Option (Option Int) :=
  if s.data = [] then none
  else
    let l := s.data
    if '/' ∈ l ∧ (splitOnChar l '/').length = 3 then
      let p := splitOnChar l '/'
      some (jsNewDate (jsParseInt (p.getD 2 []))
                      ((jsParseInt (p.getD 1 [])).map (fun x => x - 1))
                      (jsParseInt (p.getD 0 [])))
    else if '-' ∈ l ∧ (splitOnChar l '-').length = 3 then
      let p := splitOnChar l '-'
      some (jsNewDate (jsParseInt (p.getD 0 []))
                      ((jsParseInt (p.getD 1 [])).map (fun x => x - 1))
                      (jsParseInt (p.getD 2 [])))
    else none

/-- `parseInputDate`: parse `"yyyy-mm-dd"` from a date input. -/
def parseInputDate (s : String) : Option (Option Int) :=
  if s.data = [] then none
  else
    let p := splitOnChar s.data '-'
    if p.length = 3 then
      some (jsNewDate (jsParseInt (p.getD 0 []))
                      ((jsParseInt (p.getD 1 [])).map (fun x => x - 1))
                      (jsParseInt (p.getD 2 [])))
    else none

/-- Characters kept by the cleaning regex `/[^\d.-]/g` replacement. -/
def keepNumChar (c : Char) : Bool := c.isDigit || c = '.' || c = '-'

/-- Replace the first occurrence of `a` by `b`
    (JavaScript `replace` with a plain-string pattern). -/
def replaceFirst : List Char → Char → Char → List Char
  | [], _, _ => []
  | c :: cs, a, b => if c = a then b :: cs else c :: replaceFirst cs a b

/-- The cleaned character list `parseCurrency` hands to `parseFloat`:
    with a comma, remove all dots, turn the first comma into a dot and
    drop every other non-numeric character; without a comma just drop
    the non-numeric characters. -/
def currencyClean (s : String) : List Char :=
  let t := trimWs s.data
  if ',' ∈ t then
    (replaceFirst (t.filter (fun c => c ≠ '.')) ',' '.').filter keepNumChar
  else
    t.filter keepNumChar

/-- `parseCurrency`: Brazilian (`1.000,50`) or raw (`1000.50`) currency
    text to a number; anything unparseable (or falsy) becomes `0`.
    Total by construction — the source never throws. -/
def parseCurrency (val : String) : ℚ :=
  if val.data = [] then 0
  else (jsParseFloat (currencyClean val)).getD 0

/-- The loop body of `calculateBusinessDays`, on `fuel` consecutive
    days starting at day number `cur`. -/
def businessDaysLoop : Nat → Int → List Int → Nat
  | 0, _, _ => 0
  | n + 1, cur, hols =>
    (if jsWeekday cur ≠ 0 ∧ jsWeekday cur ≠ 6 ∧ cur ∉ hols then 1 else 0)
      + businessDaysLoop n (cur + 1) hols

/-- `calculateBusinessDays`: count weekdays between `start` and `end_`
    inclusive that are not holidays.  The source normalizes every input
    to local midnight with `setHours(0,0,0,0)` and compares holidays by
    `toDateString`, i.e. at day granularity, so valid dates enter the
    model already as day numbers. -/
def calculateBusinessDays (start end_ : Int) (holidays : List Int) : Nat :=
  businessDaysLoop (end_ + 1 - start).toNat start holidays

/-- `calculateBusinessDays` on possibly-invalid dates: with an Invalid
    Date on either end the loop guard `curDate <= endDate` is a `NaN`
    comparison, so the loop never runs; invalid holidays stringify to
    `"Invalid Date"` and never match a valid day. -/
def calculateBusinessDaysOpt (start end_ : Option Int) (holidays : List (Option Int)) : Nat :=
  match start, end_ with
  | some s, some e => calculateBusinessDays s e (holidays.filterMap id)
  | _, _ => 0

/-- `DatasConfig` (calendar configuration): textual period start/end,
    reference date, holiday date strings. -/
structure DatasConfig where
  dataInicial : String
  dataFinal : String
  dataAtual : String
  feriados : List String
deriving Repr, DecidableEq

/-- The accumulation window of `calculateProjection`: default
    `[periodStart, referenceDate]`; if both filter strings are supplied
    non-empty and both parse non-`null` (an Invalid Date is non-`null`
    and passes the `if (fStart && fEnd)` check!), the start becomes the
    filter start and the end is capped at the reference date. -/
def accumWindow (startMonth current : Option Int) (filterStartDate filterEndDate : Option String) :
    Option Int × Option Int :=
  match filterStartDate, filterEndDate with
  | some fs, some fe =>
    if fs ≠ "" ∧ fe ≠ "" then
      match parseInputDate fs, parseInputDate fe with
      | some a, some b => (a, if jsLtOpt b current then b else current)
      | _, _ => (startMonth, current)
    else (startMonth, current)
  | _, _ => (startMonth, current)

/-- `calculateProjection`: extrapolate `currentSales` from the business
    days elapsed in the accumulation window to the business days of the
    whole period.  Returns `0` if any config date is `null` or if no
    business day has elapsed. -/
def calculateProjection (currentSales : ℚ) (config : DatasConfig)
    (filterStartDate filterEndDate : Option String) : ℚ :=
  match parseDate config.dataInicial, parseDate config.dataFinal, parseDate config.dataAtual with
  | some startMonth, some endMonth, some current =>
    let holidays : List (Option Int) := config.feriados.filterMap parseDate
    let totalMonthBusinessDays := calculateBusinessDaysOpt startMonth endMonth holidays
    let w := accumWindow startMonth current filterStartDate filterEndDate
    let passedBusinessDays := calculateBusinessDaysOpt w.1 w.2 holidays
    if passedBusinessDays = 0 then 0
    else currentSales / (passedBusinessDays : ℚ) * (totalMonthBusinessDays : ℚ)
  | _, _, _ => 0

/-- The holidays that can actually exclude a day: the config's holiday
    strings that parse to valid dates. -/
def validHolidays (config : DatasConfig) : List Int :=
  (config.feriados.filterMap parseDate).filterMap id

/-! ### Business-day counting: characterization lemmas -/

/-- A day counted by the loop: a weekday that is not a holiday. -/
def isBusinessDay (d : Int) (hols : List Int) : Prop :=
  jsWeekday d ≠ 0 ∧ jsWeekday d ≠ 6 ∧ d ∉ hols

instance (d : Int) (hols : List Int) : Decidable (isBusinessDay d hols) := by
  unfold isBusinessDay; infer_instance

/-- Gregorian leap year. -/
def isLeapYear (y : Nat) : Bool := decide ((y % 4 = 0 ∧ ¬ y % 100 = 0) ∨ y % 400 = 0)

/-- Days in month `m` of year `y` (`m ∈ [1,12]`). -/
def daysInMonth (y m : Nat) : Nat :=
  if m = 2 then (if isLeapYear y then 29 else 28)
  else if m = 4 ∨ m = 6 ∨ m = 9 ∨ m = 11 then 30 else 31

/-- Modelled from the spec: a "well-formed `dd/mm/yyyy` or `yyyy-mm-dd`
    calendar date" — zero-padded digit groups denoting a real calendar
    day.  This is the spec's notion used to state claims C6 and C8; the
    parser itself (`parseDate`) never checks it. -/
def specWellFormedDate (s : String) : Bool :=
  (match splitOnChar s.data '/' with
   | [d, m, y] =>
     d.all Char.isDigit && m.all Char.isDigit && y.all Char.isDigit
       && decide (d.length = 2 ∧ m.length = 2 ∧ y.length = 4
            ∧ 1 ≤ digitsVal m ∧ digitsVal m ≤ 12
            ∧ 1 ≤ digitsVal d ∧ digitsVal d ≤ daysInMonth (digitsVal y) (digitsVal m))
   | _ => false)
  || (match splitOnChar s.data '-' with
      | [y, m, d] =>
        d.all Char.isDigit && m.all Char.isDigit && y.all Char.isDigit
          && decide (y.length = 4 ∧ m.length = 2 ∧ d.length = 2
               ∧ 1 ≤ digitsVal m ∧ digitsVal m ≤ 12
               ∧ 1 ≤ digitsVal d ∧ digitsVal d ≤ daysInMonth (digitsVal y) (digitsVal m))
      | _ => false)

/-- Two-digit zero-padded rendering (`dd`, `mm`). -/
def pad2 (n : Nat) : List Char := [digitChar (n / 10), digitChar (n % 10)]

/-- Four-digit zero-padded rendering (`yyyy`). -/
def pad4 (n : Nat) : List Char :=
  [digitChar (n / 1000), digitChar (n / 100 % 10), digitChar (n / 10 % 10), digitChar (n % 10)]

/-- The `dd/mm/yyyy` rendering of a calendar day. -/
def dmyRender (d m y : Nat) : String := ⟨pad2 d ++ '/' :: pad2 m ++ '/' :: pad4 y⟩

/-- The `yyyy-mm-dd` rendering of a calendar day. -/
def ymdRender (y m d : Nat) : String := ⟨pad4 y ++ '-' :: pad2 m ++ '-' :: pad2 d⟩

/-- `CteData` (one shipment record), as produced by `fetchBaseData`:
    text fields plus the parsed monetary value. -/
structure CteData where
  cte : String
  serie : String
  data : String
  dataBaixa : String
  prazoParaBaixaDias : String
  prazoBaixa : String
  statusPrazo : String
  coleta : String
  entrega : String
  numeroMdfe : String
  statusMdfe : String
  valorCte : ℚ
deriving Repr, DecidableEq

/-- The deadline-status priority of `DetailTable`'s default sort for
    the BAIXAS view (`statusPriority[...] ?? 3`). -/
def statusPriority (s : String) : Int :=
  if s = "SEM BAIXA" then 0
  else if s = "FORA DO PRAZO" then 1
  else if s = "NO PRAZO" then 2
  else 3

/-- The numeric sort key of an emission-date string:
    `parseDate(x)?.getTime() || 0` — `null` and Invalid Date both
    coerce to `0`; a valid date at local midnight has
    `getTime() = dayNumber * 86400000`. -/
def dateKey (s : String) : Int :=
  match parseDate s with
  | some (some n) => n * 86400000
  | _ => 0

/-- The BAIXAS-view default comparator of `DetailTable.processedData`:
    status priority first, then emission date. -/
def baixasCmp (a b : CteData) : Int :=
  if statusPriority a.statusPrazo ≠ statusPriority b.statusPrazo
  then statusPriority a.statusPrazo - statusPriority b.statusPrazo
  else dateKey a.data - dateKey b.data

/-- The status filter applied in the BAIXAS view before sorting. -/
def baixasFiltered (data : List CteData) (statusFilter : String) : List CteData :=
  if statusFilter ≠ "TODOS" then data.filter (fun d => d.statusPrazo = statusFilter) else data

/-- `DetailTable.processedData` for the BAIXAS view with no manual sort
    override: filter by status, then sort by the default comparator
    (`Array.prototype.sort` is a stable sort whose output is ordered by
    the consistent comparator; it is modelled by insertion sort on the
    comparator's non-positivity relation). -/
def processedBaixasDefault (data : List CteData) (statusFilter : String) : List CteData :=
  List.insertionSort (fun a b => baixasCmp a b ≤ 0) (baixasFiltered data statusFilter)

/-- Insertion into the unit set: `if (value) units.add(value)` — an
    insertion-ordered set, modelled as a duplicate-free list. -/
def addUnit (acc : List String) (s : String) : List String :=
  if s ≠ "" ∧ s ∉ acc then acc ++ [s] else acc

/-- Accumulate the unit universe over the records. -/
def unitUniverseAux : List String → List CteData → List String
  | acc, [] => acc
  | acc, d :: ds => unitUniverseAux (addUnit (addUnit acc d.coleta) d.entrega) ds

/-- The unit universe of `ManagerialTable.unitStats`: every distinct
    non-empty pickup (`coleta`) and delivery (`entrega`) unit, in first
    appearance order. -/
def unitUniverse (data : List CteData) : List String :=
  unitUniverseAux [] data

/-- Per-unit aggregated sales: sum of `valorCte` over the records whose
    pickup unit equals the unit (`vendasTotal` in `unitStats`). -/
def vendasTotal (data : List CteData) (unit : String) : ℚ :=
  ((data.filter (fun d => d.coleta = unit)).map (fun d => d.valorCte)).sum

/-- NFD-decompose-and-drop-combining-marks, for the Latin-1 letters the
    data sources use (the effect of
    `normalize("NFD").replace(/[̀-ͯ]/g, "")`). -/
def stripAccentChar (c : Char) : Char :=
  if c = 'á' ∨ c = 'à' ∨ c = 'â' ∨ c = 'ã' ∨ c = 'ä' ∨ c = 'å' then 'a'
  else if c = 'é' ∨ c = 'è' ∨ c = 'ê' ∨ c = 'ë' then 'e'
  else if c = 'í' ∨ c = 'ì' ∨ c = 'î' ∨ c = 'ï' then 'i'
  else if c = 'ó' ∨ c = 'ò' ∨ c = 'ô' ∨ c = 'õ' ∨ c = 'ö' then 'o'
  else if c = 'ú' ∨ c = 'ù' ∨ c = 'û' ∨ c = 'ü' then 'u'
  else if c = 'ç' then 'c'
  else if c = 'ñ' then 'n'
  else if c = 'ý' then 'y'
  else if c = 'Á' ∨ c = 'À' ∨ c = 'Â' ∨ c = 'Ã' ∨ c = 'Ä' ∨ c = 'Å' then 'A'
  else if c = 'É' ∨ c = 'È' ∨ c = 'Ê' ∨ c = 'Ë' then 'E'
  else if c = 'Í' ∨ c = 'Ì' ∨ c = 'Î' ∨ c = 'Ï' then 'I'
  else if c = 'Ó' ∨ c = 'Ò' ∨ c = 'Ô' ∨ c = 'Õ' ∨ c = 'Ö' then 'O'
  else if c = 'Ú' ∨ c = 'Ù' ∨ c = 'Û' ∨ c = 'Ü' then 'U'
  else if c = 'Ç' then 'C'
  else if c = 'Ñ' then 'N'
  else c

/-- Merge adjacent spaces (with all whitespace already mapped to `' '`,
    this is `replace(/\s+/g, " ")`). -/
def squeezeSpaces : List Char → List Char
  | [] => []
  | [c] => [c]
  | a :: b :: rest =>
    if a = ' ' ∧ b = ' ' then squeezeSpaces (b :: rest)
    else a :: squeezeSpaces (b :: rest)

/-- `normalizeString`: strip accents, collapse whitespace runs to a
    single space, trim, upper-case; empty/falsy input gives `""`. -/
def normalizeString (s : String) : String :=
  if s.data = [] then ""
  else
    ⟨(trimWs (squeezeSpaces ((s.data.map stripAccentChar).map
        (fun c => if c.isWhitespace then ' ' else c)))).map Char.toUpper⟩

/-- A raw CSV row: column label to text value, in column order. -/
def RawRow := List (String × String)

/-- Exact property access `row[f]` (`none` = `undefined`). -/
def rowLookup (row : RawRow) (key : String) : Option String :=
  ((row : List (String × String)).find? (fun kv => kv.1 = key)).map (fun kv => kv.2)

/-- `getKey`: find a value by header, insensitive to accents, case and
    whitespace.  An empty found header is falsy and yields `undefined`. -/
def getKey (row : RawRow) (target : String) : Option String :=
  match (row : List (String × String)).find?
      (fun kv => normalizeString kv.1 = normalizeString target) with
  | some kv => if kv.1 ≠ "" then some kv.2 else none
  | none => none

/-- `getValue` of `fetchBaseData`: first candidate key whose value is
    present and non-empty; else the column at `index` (whose value may
    be empty but must be present); else `""`. -/
def getValue (fields : List String) (row : RawRow) (keys : List String) (index : Nat) : String :=
  match keys.findSome? (fun k =>
      match getKey row k with
      | some v => if v ≠ "" then some v else none
      | none => none) with
  | some v => v
  | none =>
    match fields.get? index with
    | some f =>
      if f ≠ "" then
        match rowLookup row f with
        | some v => v
        | none => ""
      else ""
    | none => ""

/-- The candidate headers of the monetary value column. -/
def valorKeys : List String := ["VALOR_CTE", "VALOR CTE", "VALOR"]

/-- The row-to-record normalization of `fetchBaseData`. -/
def normalizeBaseRow (fields : List String) (row : RawRow) : CteData :=
  { cte := getValue fields row ["CTE"] 0
    serie := getValue fields row ["SERIE"] 1
    data := getValue fields row ["DATA EMISSAO", "DATA_EMISSAO", "DATA (dd/m/aaaa)",
      "DATA (dd/mm/aaaa)", "DATA", "Data", "data"] 2
    dataBaixa := getValue fields row ["DATA_BAIXA", "DATA BAIXA (dd/mm/aaaa)", "DATA BAIXA",
      "Data Baixa", "data baixa"] 3
    prazoParaBaixaDias := getValue fields row ["PRAZO PARA BAIXA (DIAS)", "PRAZO PARA BAIXA"] 4
    prazoBaixa := getValue fields row ["PRAZO BAIXA"] 5
    statusPrazo := normalizeString (getValue fields row ["STATUS PRAZO"] 6)
    coleta := normalizeString (getValue fields row ["COLETA"] 7)
    entrega := normalizeString (getValue fields row ["ENTREGA"] 8)
    numeroMdfe := getValue fields row ["NUMERO MDFE"] 9
    statusMdfe := normalizeString (getValue fields row ["STATUS MDFE"] 10)
    valorCte := parseCurrency
      (if getValue fields row valorKeys 11 = "" then "0" else getValue fields row valorKeys 11) }

/-! ### Theorems -/

theorem businessDaysLoop_eq_card (hols : List Int) :
    ∀ (n : Nat) (s : Int),
      businessDaysLoop n s hols
        = ((Finset.Icc s (s + n - 1)).filter (fun d => isBusinessDay d hols)).card := by
  intro n
  induction n with
  | zero =>
    intro s
    have h : Finset.Icc s (s + (0 : Nat) - 1) = ∅ := Finset.Icc_eq_empty (by omega)
    simp [businessDaysLoop, h]
  | succ n ih =>
    intro s
    have hIcc : Finset.Icc s (s + (n + 1 : Nat) - 1)
        = insert s (Finset.Icc (s + 1) (s + 1 + n - 1)) := by
      ext d
      simp only [Finset.mem_Icc, Finset.mem_insert]
      omega
    have hs : s ∉ Finset.Icc (s + 1) (s + 1 + n - 1) := by
      simp only [Finset.mem_Icc]
      omega
    rw [businessDaysLoop, ih (s + 1), hIcc, Finset.filter_insert]
    by_cases hP : isBusinessDay s hols
    · rw [if_pos hP, if_pos ⟨hP.1, hP.2.1, hP.2.2⟩,
        Finset.card_insert_of_not_mem (fun hmem => hs (Finset.mem_of_mem_filter _ hmem))]
      omega
    · rw [if_neg hP, if_neg (fun h => hP ⟨h.1, h.2.1, h.2.2⟩)]
      omega

theorem calculateBusinessDays_eq_card (start end_ : Int) (hols : List Int) :
    calculateBusinessDays start end_ hols
      = ((Finset.Icc start end_).filter (fun d => isBusinessDay d hols)).card := by
  rw [calculateBusinessDays, businessDaysLoop_eq_card]
  congr 2
  ext d
  simp only [Finset.mem_Icc]
  omega

/-- C2: `calculateBusinessDays start end_ holidays` equals the number
    of calendar days `d` with `start ≤ d ≤ end_` (both endpoints
    inclusive, at day granularity) whose weekday is neither Saturday
    nor Sunday and that are not in `holidays`; consequently on a single
    day it is `1` for a weekday and `0` for a weekend day, and the
    result is `0` whenever `start > end_`. -/
theorem c2_business_days_count (start end_ : Int) (hols : List Int) (d : Int) :
    calculateBusinessDays start end_ hols
        = ((Finset.Icc start end_).filter
            (fun x => jsWeekday x ≠ 0 ∧ jsWeekday x ≠ 6 ∧ x ∉ hols)).card
    ∧ (jsWeekday d ≠ 0 ∧ jsWeekday d ≠ 6 → calculateBusinessDays d d [] = 1)
    ∧ (jsWeekday d = 0 ∨ jsWeekday d = 6 → calculateBusinessDays d d [] = 0)
    ∧ (start > end_ → calculateBusinessDays start end_ hols = 0) := by
  refine ⟨calculateBusinessDays_eq_card start end_ hols, ?_, ?_, ?_⟩
  · intro hw
    rw [calculateBusinessDays_eq_card]
    have : Finset.Icc d d = {d} := Finset.Icc_self d
    rw [this]
    rw [Finset.filter_singleton, if_pos ⟨hw.1, hw.2, List.not_mem_nil d⟩]
    simp
  · intro hw
    rw [calculateBusinessDays_eq_card]
    have : Finset.Icc d d = {d} := Finset.Icc_self d
    rw [this]
    rw [Finset.filter_singleton, if_neg (by rcases hw with h | h <;> simp [h, isBusinessDay])]
    simp
  · intro hgt
    rw [calculateBusinessDays_eq_card, Finset.Icc_eq_empty (by omega)]
    simp

/-- C2 witness: day 4 (1970-01-05) is a Monday and counts as one
    business day; day 3 (1970-01-04) is a Sunday and counts zero;
    an empty range counts zero. -/
theorem c2_business_days_count_witness :
    calculateBusinessDays 4 4 [] = 1
    ∧ calculateBusinessDays 3 3 [] = 0
    ∧ calculateBusinessDays 5 3 [7] = 0 :=
  ⟨(c2_business_days_count 4 4 [] 4).2.1 (by decide),
   (c2_business_days_count 3 3 [] 3).2.2.1 (by decide),
   (c2_business_days_count 5 3 [7] 0).2.2.2 (by decide)⟩

/-- C10: if any of the configured period-start, period-end or reference
    date strings parses to `null`, `calculateProjection` is `0` for
    every sales value, holiday list and filter window. -/
theorem c10_null_config_gives_zero (sales : ℚ) (config : DatasConfig)
    (fs fe : Option String)
    (h : parseDate config.dataInicial = none ∨ parseDate config.dataFinal = none
          ∨ parseDate config.dataAtual = none) :
    calculateProjection sales config fs fe = 0 := by
  unfold calculateProjection
  split
  · next startMonth endMonth current h1 h2 h3 =>
      rcases h with h | h | h <;> simp_all
  · rfl

/-- C10 witness: a config whose start date string parses to `null`
    projects to `0` even with nonzero sales and a filter window. -/
theorem c10_null_config_gives_zero_witness :
    calculateProjection 500 ⟨"garbage", "31/03/2024", "02/03/2024", ["08/03/2024"]⟩
      (some "2024-03-01") (some "2024-03-05") = 0 :=
  c10_null_config_gives_zero 500 _ _ _ (Or.inl (by decide))

/-- C1 (amended): with parseable config dates, `calculateProjection`
    returns `0` when the accumulation window contains no business day
    and otherwise `(currentSales / elapsedBusinessDays) *
    totalBusinessDays` with `totalBusinessDays` the business-day count
    of `[periodStart, periodEnd]`; in the March-2024 scenario the
    reference date 02/03/2024 is a Saturday, so only 1 business day has
    elapsed (not 2) and `project(300, config) = (300/1)*21 = 6300`. -/
theorem c1_projection_formula :
    (∀ (sales : ℚ) (config : DatasConfig) (fs fe : Option String) (s e c : Int),
      parseDate config.dataInicial = some (some s) →
      parseDate config.dataFinal = some (some e) →
      parseDate config.dataAtual = some (some c) →
      calculateProjection sales config fs fe =
        (let w := accumWindow (some s) (some c) fs fe
         let elapsed := calculateBusinessDaysOpt w.1 w.2 (config.feriados.filterMap parseDate)
         if elapsed = 0 then 0
         else sales / (elapsed : ℚ) * (calculateBusinessDays s e (validHolidays config) : ℚ)))
    ∧ calculateProjection 300 ⟨"01/03/2024", "31/03/2024", "02/03/2024", []⟩ none none = 6300 := by
  constructor
  · intro sales config fs fe s e c h1 h2 h3
    unfold calculateProjection
    rw [h1, h2, h3]
    rfl
  · with_unfolding_all rfl

/-- C1 witness: the general formula applied to the March-2024 config
    (day numbers: 01/03/2024 = 19783, 31/03/2024 = 19813, 02/03/2024 =
    19784) evaluates to `300 / 1 * 21`. -/
theorem c1_projection_formula_witness :
    calculateProjection 300 ⟨"01/03/2024", "31/03/2024", "02/03/2024", []⟩ none none
      = 300 / (1 : ℚ) * (21 : ℚ) := by
  have h := c1_projection_formula.1 300 ⟨"01/03/2024", "31/03/2024", "02/03/2024", []⟩
    none none 19783 19813 19784 (by decide) (by decide) (by decide)
  rw [h]
  with_unfolding_all rfl

/-- C1 counterexample: on the spec's own March-2024 scenario the code
    returns 6300, not 3150 (02/03/2024 is a Saturday, so the elapsed
    business-day count is 1, not 2). -/
theorem c1_scenario_counterexample :
    calculateProjection 300 ⟨"01/03/2024", "31/03/2024", "02/03/2024", []⟩ none none = 6300
    ∧ calculateProjection 300 ⟨"01/03/2024", "31/03/2024", "02/03/2024", []⟩ none none ≠ 3150 := by
  constructor
  · with_unfolding_all rfl
  · with_unfolding_all decide

/-- C4: with parseable config dates and both filter dates supplied and
    parseable, the accumulation window starts at the filter start —
    with no clamping to the period start, even when the filter start
    precedes it — and ends at `min(filterEnd, referenceDate)`; with
    either filter date absent the window is
    `[periodStart, referenceDate]`. -/
theorem c4_accumulation_window (sales : ℚ) (config : DatasConfig) (fs fe : String)
    (ofs ofe : Option String) (s e c a b : Int)
    (h1 : parseDate config.dataInicial = some (some s))
    (h2 : parseDate config.dataFinal = some (some e))
    (h3 : parseDate config.dataAtual = some (some c))
    (hfs : fs ≠ "") (hfe : fe ≠ "")
    (ha : parseInputDate fs = some (some a))
    (hb : parseInputDate fe = some (some b)) :
    (calculateProjection sales config (some fs) (some fe)
      = (let elapsed := calculateBusinessDays a (min b c) (validHolidays config)
         if elapsed = 0 then 0
         else sales / (elapsed : ℚ) * (calculateBusinessDays s e (validHolidays config) : ℚ)))
    ∧ calculateProjection sales config none ofe
        = (let elapsed := calculateBusinessDays s c (validHolidays config)
           if elapsed = 0 then 0
           else sales / (elapsed : ℚ) * (calculateBusinessDays s e (validHolidays config) : ℚ))
    ∧ calculateProjection sales config ofs none
        = (let elapsed := calculateBusinessDays s c (validHolidays config)
           if elapsed = 0 then 0
           else sales / (elapsed : ℚ) * (calculateBusinessDays s e (validHolidays config) : ℚ)) := by
  have hmin : (if jsLtOpt (some b) (some c) then some b else some c) = some (min b c) := by
    rcases lt_or_ge b c with h | h
    · simp [jsLtOpt, h, Int.min_def, le_of_lt h]
    · have : ¬ b < c := not_lt_of_ge h
      simp [jsLtOpt, this, Int.min_def]
      omega
  have hw : accumWindow (some s) (some c) (some fs) (some fe) = (some a, some (min b c)) := by
    simp only [accumWindow]
    rw [if_pos ⟨hfs, hfe⟩, ha, hb]
    simp only [hmin]
  refine ⟨?_, ?_, ?_⟩
  · unfold calculateProjection
    rw [h1, h2, h3]
    show (let holidays := List.filterMap parseDate config.feriados
          let total := calculateBusinessDaysOpt (some s) (some e) holidays
          let w := accumWindow (some s) (some c) (some fs) (some fe)
          let passed := calculateBusinessDaysOpt w.1 w.2 holidays
          if passed = 0 then 0 else sales / (passed : ℚ) * (total : ℚ)) = _
    rw [hw]
    rfl
  · unfold calculateProjection
    rw [h1, h2, h3]
    rfl
  · unfold calculateProjection
    rw [h1, h2, h3]
    cases ofs <;> rfl

/-- C4 witness: filter start 2024-02-26 lies before the period start
    01/03/2024 and is used as-is (window 26/02–05/03 has 7 business
    days), and filter end 2024-03-08 is capped at the reference date
    05/03/2024. -/
theorem c4_accumulation_window_witness :
    calculateProjection 700 ⟨"01/03/2024", "31/03/2024", "05/03/2024", []⟩
        (some "2024-02-26") (some "2024-03-08") = 700 / (7 : ℚ) * (21 : ℚ) := by
  have h := (c4_accumulation_window 700 ⟨"01/03/2024", "31/03/2024", "05/03/2024", []⟩
      "2024-02-26" "2024-03-08" none none 19783 19813 19787 19779 19790
      (by decide) (by decide) (by decide) (by decide) (by decide) (by decide) (by decide)).1
  rw [h]
  with_unfolding_all rfl

/-- C5: comma text is read as thousands-dot/decimal-comma
    (`"1.234,56"` ↦ 1234.56), plain dot-decimal text is read directly
    (`"1234.56"` ↦ 1234.56), and any text whose cleaned form fails to
    parse yields `0` (`parseCurrency` is total — it never throws). -/
theorem c5_parse_currency :
    parseCurrency "1.234,56" = 1234.56
    ∧ parseCurrency "1234.56" = 1234.56
    ∧ ∀ s : String, jsParseFloat (currencyClean s) = none → parseCurrency s = 0 := by
  refine ⟨by with_unfolding_all rfl, by with_unfolding_all rfl, ?_⟩
  intro s h
  unfold parseCurrency
  by_cases hs : s.data = []
  · rw [if_pos hs]
  · rw [if_neg hs, h]
    rfl

/-- C5 witness: the garbage input `"abc"` cleans to an unparseable
    string and yields `0`. -/
theorem c5_parse_currency_witness : parseCurrency "abc" = 0 :=
  c5_parse_currency.2.2 "abc" (by decide)

/-- C6 (amended): `parseDate` returns `null` exactly for empty input or
    input that splits into three parts under neither `'/'` nor `'-'`;
    malformed three-part input still yields a `Date` object — rolled
    over for out-of-range numeric components, Invalid Date (not
    `null`) for non-numeric ones. -/
theorem c6_parse_date_null_iff (s : String) :
    parseDate s = none
      ↔ (s.data = []
          ∨ (¬('/' ∈ s.data ∧ (splitOnChar s.data '/').length = 3)
             ∧ ¬('-' ∈ s.data ∧ (splitOnChar s.data '-').length = 3))) := by
  unfold parseDate
  by_cases h0 : s.data = []
  · simp [h0]
  · rw [if_neg h0]
    by_cases h1 : '/' ∈ s.data ∧ (splitOnChar s.data '/').length = 3
    · simp [h1, h0]
    · by_cases h2 : '-' ∈ s.data ∧ (splitOnChar s.data '-').length = 3
      · simp [h1, h2, h0]
      · simp [h1, h2, h0]

/-- C6 counterexample: `"99/99/9999"` is not a well-formed calendar
    date, yet `parseDate` returns a valid `Date` (the out-of-range
    month and day roll over), not `null`. -/
theorem c6_malformed_counterexample :
    specWellFormedDate "99/99/9999" = false
    ∧ parseDate "99/99/9999" = some (some 2935611) := by
  constructor
  · decide
  · decide

theorem digitChar_props : ∀ k, k < 10 →
    (digitChar k).isDigit = true ∧ (digitChar k).isWhitespace = false
    ∧ digitChar k ≠ '-' ∧ digitChar k ≠ '+'
    ∧ digitChar k ≠ '/' ∧ (digitChar k).toNat = 48 + k := by decide

theorem splitOnChar_not_mem {l : List Char} {sep : Char} (h : sep ∉ l) :
    splitOnChar l sep = [l] := by
  induction l with
  | nil => rfl
  | cons c cs ih =>
    have hc : ¬ c = sep := fun e => h (e ▸ List.mem_cons_self c cs)
    have hcs : sep ∉ cs := fun hm => h (List.mem_cons_of_mem _ hm)
    simp [splitOnChar, hc, ih hcs]

theorem splitOnChar_append {l1 l2 : List Char} {sep : Char} (h : sep ∉ l1) :
    splitOnChar (l1 ++ sep :: l2) sep = l1 :: splitOnChar l2 sep := by
  induction l1 with
  | nil => simp [splitOnChar]
  | cons c cs ih =>
    have hc : ¬ c = sep := fun e => h (e ▸ List.mem_cons_self c cs)
    have hcs : sep ∉ cs := fun hm => h (List.mem_cons_of_mem _ hm)
    simp [splitOnChar, hc, ih hcs]

theorem jsParseInt_pad2 (n : Nat) (h : n ≤ 99) : jsParseInt (pad2 n) = some (n : Int) := by
  have p1 := digitChar_props (n / 10) (by omega)
  have p2 := digitChar_props (n % 10) (by omega)
  simp only [jsParseInt, pad2, parseDigitsPrefix, digitsVal, charVal,
    List.dropWhile, List.takeWhile, List.foldl,
    p1.1, p1.2.1, p1.2.2.1, p1.2.2.2.1, p1.2.2.2.2.2,
    p2.1, p2.2.1, p2.2.2.2.2.2,
    if_false, if_true, Bool.false_eq_true, ite_false, ite_true]
  simp
  omega

theorem jsParseInt_pad4 (n : Nat) (h : n ≤ 9999) : jsParseInt (pad4 n) = some (n : Int) := by
  have p1 := digitChar_props (n / 1000) (by omega)
  have p2 := digitChar_props (n / 100 % 10) (by omega)
  have p3 := digitChar_props (n / 10 % 10) (by omega)
  have p4 := digitChar_props (n % 10) (by omega)
  simp only [jsParseInt, pad4, parseDigitsPrefix, digitsVal, charVal,
    List.dropWhile, List.takeWhile, List.foldl,
    p1.1, p1.2.1, p1.2.2.1, p1.2.2.2.1, p1.2.2.2.2.2,
    p2.1, p2.2.2.2.2.2, p3.1, p3.2.2.2.2.2, p4.1, p4.2.2.2.2.2,
    if_false, if_true]
  simp
  omega

theorem pad2_all_digits (n : Nat) (h : n ≤ 99) : ∀ x ∈ pad2 n, x.isDigit = true := by
  have p1 := digitChar_props (n / 10) (by omega)
  have p2 := digitChar_props (n % 10) (by omega)
  intro x hx
  rcases List.mem_cons.mp hx with h1 | hx
  · rw [h1]; exact p1.1
  · rcases List.mem_cons.mp hx with h2 | hx
    · rw [h2]; exact p2.1
    · exact absurd hx (List.not_mem_nil x)

theorem pad4_all_digits (n : Nat) (h : n ≤ 9999) : ∀ x ∈ pad4 n, x.isDigit = true := by
  have p1 := digitChar_props (n / 1000) (by omega)
  have p2 := digitChar_props (n / 100 % 10) (by omega)
  have p3 := digitChar_props (n / 10 % 10) (by omega)
  have p4 := digitChar_props (n % 10) (by omega)
  intro x hx
  rcases List.mem_cons.mp hx with h1 | hx
  · rw [h1]; exact p1.1
  rcases List.mem_cons.mp hx with h2 | hx
  · rw [h2]; exact p2.1
  rcases List.mem_cons.mp hx with h3 | hx
  · rw [h3]; exact p3.1
  rcases List.mem_cons.mp hx with h4 | hx
  · rw [h4]; exact p4.1
  exact absurd hx (List.not_mem_nil x)

theorem not_mem_of_all_digits {l : List Char} (hl : ∀ x ∈ l, x.isDigit = true)
    {c : Char} (hc : c.isDigit = false) : c ∉ l := by
  intro hm
  have := hl c hm
  rw [hc] at this
  exact Bool.false_ne_true this

theorem daysInMonth_le_31 (y m : Nat) : daysInMonth y m ≤ 31 := by
  unfold daysInMonth
  split
  · split <;> omega
  · split <;> omega

/-- C8: a calendar day rendered as `dd/mm/yyyy` and as `yyyy-mm-dd`
    parses to the same valid local date under `parseDate`. -/
theorem c8_parse_date_round_trip (y m d : Nat)
    (hy1 : 1000 ≤ y) (hy2 : y ≤ 9999) (hm1 : 1 ≤ m) (hm2 : m ≤ 12)
    (hd1 : 1 ≤ d) (hd2 : d ≤ daysInMonth y m) :
    parseDate (dmyRender d m y) = some (some (jsMakeDayNum y ((m : Int) - 1) d))
    ∧ parseDate (ymdRender y m d) = some (some (jsMakeDayNum y ((m : Int) - 1) d))
    ∧ parseDate (dmyRender d m y) = parseDate (ymdRender y m d) := by
  have hd99 : d ≤ 99 := le_trans hd2 (le_trans (daysInMonth_le_31 y m) (by omega))
  have hm99 : m ≤ 99 := by omega
  have hDd := pad2_all_digits d hd99
  have hDm := pad2_all_digits m hm99
  have hDy := pad4_all_digits y hy2
  have hsd : '/' ∉ pad2 d := not_mem_of_all_digits hDd (by decide)
  have hsm : '/' ∉ pad2 m := not_mem_of_all_digits hDm (by decide)
  have hsy : '/' ∉ pad4 y := not_mem_of_all_digits hDy (by decide)
  have hdd : '-' ∉ pad2 d := not_mem_of_all_digits hDd (by decide)
  have hdm : '-' ∉ pad2 m := not_mem_of_all_digits hDm (by decide)
  have hdy : '-' ∉ pad4 y := not_mem_of_all_digits hDy (by decide)
  have hsplit1 : splitOnChar (pad2 d ++ '/' :: (pad2 m ++ '/' :: pad4 y)) '/'
      = [pad2 d, pad2 m, pad4 y] := by
    rw [splitOnChar_append hsd, splitOnChar_append hsm, splitOnChar_not_mem hsy]
  have hsplit2 : splitOnChar (pad4 y ++ '-' :: (pad2 m ++ '-' :: pad2 d)) '-'
      = [pad4 y, pad2 m, pad2 d] := by
    rw [splitOnChar_append hdy, splitOnChar_append hdm, splitOnChar_not_mem hdd]
  have hmem1 : '/' ∈ pad2 d ++ '/' :: (pad2 m ++ '/' :: pad4 y) :=
    List.mem_append_right _ (List.mem_cons_self _ _)
  have hmem2 : '-' ∈ pad4 y ++ '-' :: (pad2 m ++ '-' :: pad2 d) :=
    List.mem_append_right _ (List.mem_cons_self _ _)
  have hnoslash : '/' ∉ pad4 y ++ '-' :: (pad2 m ++ '-' :: pad2 d) := by
    intro hm0
    simp only [List.mem_append, List.mem_cons] at hm0
    rcases hm0 with h | h | h | h | h
    · exact hsy h
    · exact (by decide : ¬ ('/' : Char) = '-') h
    · exact hsm h
    · exact (by decide : ¬ ('/' : Char) = '-') h
    · exact hsd h
  have hne1 : pad2 d ++ '/' :: (pad2 m ++ '/' :: pad4 y) ≠ [] := by
    simp [pad2]
  have hne2 : pad4 y ++ '-' :: (pad2 m ++ '-' :: pad2 d) ≠ [] := by
    simp [pad4]
  have hdmy : parseDate (dmyRender d m y) = some (some (jsMakeDayNum y ((m : Int) - 1) d)) := by
    show parseDate ⟨pad2 d ++ '/' :: (pad2 m ++ '/' :: pad4 y)⟩ = _
    unfold parseDate
    rw [if_neg hne1, if_pos ⟨hmem1, by rw [hsplit1]; rfl⟩, hsplit1]
    have g1 : ([pad2 d, pad2 m, pad4 y].getD 1 []) = pad2 m := rfl
    have g2 : ([pad2 d, pad2 m, pad4 y].getD 2 []) = pad4 y := rfl
    have g0 : ([pad2 d, pad2 m, pad4 y].getD 0 []) = pad2 d := rfl
    show some (jsNewDate (jsParseInt ([pad2 d, pad2 m, pad4 y].getD 2 []))
          (Option.map (fun x => x - 1) (jsParseInt ([pad2 d, pad2 m, pad4 y].getD 1 [])))
          (jsParseInt ([pad2 d, pad2 m, pad4 y].getD 0 []))) = _
    rw [g0, g1, g2, jsParseInt_pad4 y hy2, jsParseInt_pad2 m hm99, jsParseInt_pad2 d hd99]
    rfl
  have hymd : parseDate (ymdRender y m d) = some (some (jsMakeDayNum y ((m : Int) - 1) d)) := by
    show parseDate ⟨pad4 y ++ '-' :: (pad2 m ++ '-' :: pad2 d)⟩ = _
    unfold parseDate
    rw [if_neg hne2, if_neg (fun hand => hnoslash hand.1),
      if_pos ⟨hmem2, by rw [hsplit2]; rfl⟩, hsplit2]
    have g1 : ([pad4 y, pad2 m, pad2 d].getD 1 []) = pad2 m := rfl
    have g2 : ([pad4 y, pad2 m, pad2 d].getD 2 []) = pad2 d := rfl
    have g0 : ([pad4 y, pad2 m, pad2 d].getD 0 []) = pad4 y := rfl
    show some (jsNewDate (jsParseInt ([pad4 y, pad2 m, pad2 d].getD 0 []))
          (Option.map (fun x => x - 1) (jsParseInt ([pad4 y, pad2 m, pad2 d].getD 1 [])))
          (jsParseInt ([pad4 y, pad2 m, pad2 d].getD 2 []))) = _
    rw [g0, g1, g2, jsParseInt_pad4 y hy2, jsParseInt_pad2 m hm99, jsParseInt_pad2 d hd99]
    rfl
  exact ⟨hdmy, hymd, by rw [hdmy, hymd]⟩

/-- C8 witness: 1 March 2024 rendered both ways parses to the same
    date (day number 19783). -/
theorem c8_parse_date_round_trip_witness :
    parseDate (dmyRender 1 3 2024) = parseDate (ymdRender 2024 3 1)
    ∧ parseDate "01/03/2024" = parseDate "2024-03-01" := by
  have h := c8_parse_date_round_trip 2024 3 1 (by decide) (by decide) (by decide)
    (by decide) (by decide) (by decide)
  refine ⟨h.2.2, ?_⟩
  have e1 : dmyRender 1 3 2024 = "01/03/2024" := by decide
  have e2 : ymdRender 2024 3 1 = "2024-03-01" := by decide
  rw [← e1, ← e2]
  exact h.2.2

/-- C7: in the deadline view with no manual sort override the result is
    a permutation of the filtered records ordered by the fixed status
    priority SEM BAIXA < FORA DO PRAZO < NO PRAZO < unrecognized, with
    ascending emission date breaking ties of equal priority. -/
theorem c7_baixas_default_order (data : List CteData) (statusFilter : String) :
    List.Pairwise
      (fun a b : CteData =>
        statusPriority a.statusPrazo < statusPriority b.statusPrazo
        ∨ (statusPriority a.statusPrazo = statusPriority b.statusPrazo
           ∧ dateKey a.data ≤ dateKey b.data))
      (processedBaixasDefault data statusFilter)
    ∧ (processedBaixasDefault data statusFilter).Perm (baixasFiltered data statusFilter) := by
  have hiff : ∀ a b : CteData, (baixasCmp a b ≤ 0) ↔
      (statusPriority a.statusPrazo < statusPriority b.statusPrazo
        ∨ (statusPriority a.statusPrazo = statusPriority b.statusPrazo
           ∧ dateKey a.data ≤ dateKey b.data)) := by
    intro a b
    unfold baixasCmp
    by_cases h : statusPriority a.statusPrazo = statusPriority b.statusPrazo
    · simp [h]
    · rw [if_pos h]
      constructor
      · intro hle
        exact Or.inl (by omega)
      · intro hor
        rcases hor with hlt | ⟨heq, _⟩
        · omega
        · exact absurd heq h
  constructor
  · have hsorted : List.Sorted (fun a b => baixasCmp a b ≤ 0)
        (processedBaixasDefault data statusFilter) := by
      haveI : IsTotal CteData (fun a b => baixasCmp a b ≤ 0) := by
        constructor
        intro a b
        unfold baixasCmp
        by_cases h : statusPriority a.statusPrazo = statusPriority b.statusPrazo
        · simp only [h]
          omega
        · have h2 : statusPriority b.statusPrazo ≠ statusPriority a.statusPrazo := fun e => h e.symm
          rw [if_pos h, if_pos h2]
          omega
      haveI : IsTrans CteData (fun a b => baixasCmp a b ≤ 0) := by
        constructor
        intro a b c hab hbc
        unfold baixasCmp at hab hbc ⊢
        by_cases h1 : statusPriority a.statusPrazo = statusPriority b.statusPrazo
          <;> by_cases h2 : statusPriority b.statusPrazo = statusPriority c.statusPrazo
          <;> by_cases h3 : statusPriority a.statusPrazo = statusPriority c.statusPrazo
          <;> simp only [h1, h2, h3, if_pos, if_neg, ite_true, ite_false, ne_eq,
                not_true_eq_false, not_false_eq_true] at hab hbc ⊢
          <;> omega
      exact List.sorted_insertionSort (fun a b => baixasCmp a b ≤ 0) (baixasFiltered data statusFilter)
    exact List.Pairwise.imp_of_mem (fun {a b} _ _ h => (hiff a b).mp h) hsorted
  · exact List.perm_insertionSort (fun a b => baixasCmp a b ≤ 0) (baixasFiltered data statusFilter)

theorem mem_addUnit {acc : List String} {s x : String} :
    x ∈ addUnit acc s ↔ x ∈ acc ∨ (x = s ∧ s ≠ "") := by
  unfold addUnit
  by_cases h : s ≠ "" ∧ s ∉ acc
  · rw [if_pos h]
    simp only [List.mem_append, List.mem_singleton]
    constructor
    · rintro (hx | hx)
      · exact Or.inl hx
      · exact Or.inr ⟨hx, h.1⟩
    · rintro (hx | ⟨hx, _⟩)
      · exact Or.inl hx
      · exact Or.inr hx
  · rw [if_neg h]
    rcases not_and_or.mp h with h1 | h2
    · have hs : s = "" := not_not.mp h1
      constructor
      · exact Or.inl
      · rintro (hx | ⟨_, hne⟩)
        · exact hx
        · exact absurd hs hne
    · have hs : s ∈ acc := not_not.mp h2
      constructor
      · exact Or.inl
      · rintro (hx | ⟨hx, _⟩)
        · exact hx
        · exact hx ▸ hs

theorem nodup_addUnit {acc : List String} {s : String} (h : acc.Nodup) :
    (addUnit acc s).Nodup := by
  unfold addUnit
  by_cases hc : s ≠ "" ∧ s ∉ acc
  · rw [if_pos hc]
    exact List.Nodup.append h (List.nodup_singleton s)
      (by
        intro a ha hb
        rw [List.mem_singleton] at hb
        exact hc.2 (hb ▸ ha))
  · rw [if_neg hc]
    exact h

theorem unitUniverseAux_nodup : ∀ (l : List CteData) (acc : List String),
    acc.Nodup → (unitUniverseAux acc l).Nodup := by
  intro l
  induction l with
  | nil => intro acc h; exact h
  | cons d ds ih =>
    intro acc h
    exact ih _ (nodup_addUnit (nodup_addUnit h))

theorem mem_unitUniverseAux : ∀ (l : List CteData) (acc : List String) (x : String),
    x ∈ unitUniverseAux acc l
      ↔ x ∈ acc ∨ (x ≠ "" ∧ ∃ d ∈ l, d.coleta = x ∨ d.entrega = x) := by
  intro l
  induction l with
  | nil =>
    intro acc x
    simp [unitUniverseAux]
  | cons d ds ih =>
    intro acc x
    rw [unitUniverseAux, ih, mem_addUnit, mem_addUnit]
    constructor
    · rintro (((hx | ⟨hx, hne⟩) | ⟨hx, hne⟩) | ⟨hne, e, he, hor⟩)
      · exact Or.inl hx
      · exact Or.inr ⟨hx ▸ hne, d, List.mem_cons_self d ds, Or.inl hx.symm⟩
      · exact Or.inr ⟨hx ▸ hne, d, List.mem_cons_self d ds, Or.inr hx.symm⟩
      · exact Or.inr ⟨hne, e, List.mem_cons_of_mem d he, hor⟩
    · rintro (hx | ⟨hne, e, he, hor⟩)
      · exact Or.inl (Or.inl (Or.inl hx))
      · rcases List.mem_cons.mp he with rfl | he2
        · rcases hor with hc | hc
          · exact Or.inl (Or.inl (Or.inr ⟨hc.symm, hc ▸ hne⟩))
          · exact Or.inl (Or.inr ⟨hc.symm, hc ▸ hne⟩)
        · exact Or.inr ⟨hne, e, he2, hor⟩

theorem sum_map_add_q {α : Type} (f g : α → ℚ) (l : List α) :
    (l.map (fun x => f x + g x)).sum = (l.map f).sum + (l.map g).sum := by
  induction l with
  | nil => simp
  | cons a l ih => simp [ih]; ring

theorem sum_ite_eq_mem_q (v : ℚ) (c : String) (U : List String) (hU : U.Nodup) :
    (U.map (fun u => if c = u then v else 0)).sum = if c ∈ U then v else 0 := by
  induction U with
  | nil => simp
  | cons u us ih =>
    rcases List.nodup_cons.mp hU with ⟨hu, hus⟩
    by_cases hc : c = u
    · subst hc
      have : (us.map (fun u2 => if c = u2 then v else 0)).sum = 0 := by
        rw [ih hus, if_neg hu]
      simp [this]
    · simp only [List.map_cons, List.sum_cons, if_neg hc, ih hus, zero_add,
        List.mem_cons]
      by_cases hm : c ∈ us
      · rw [if_pos hm, if_pos (Or.inr hm)]
      · rw [if_neg hm, if_neg (by rintro (h | h); exact hc h; exact hm h)]

theorem sum_vendas_over_units (U : List String) (hU : U.Nodup) :
    ∀ (l : List CteData), (∀ r ∈ l, (r.coleta ∈ U ↔ r.coleta ≠ "")) →
      (U.map (fun u => vendasTotal l u)).sum
        = ((l.filter (fun r => r.coleta ≠ "")).map (fun r => r.valorCte)).sum := by
  intro l
  induction l with
  | nil =>
    intro _
    simp [vendasTotal]
  | cons r rs ih =>
    intro h
    have hr := h r (List.mem_cons_self r rs)
    have hrs := fun x hx => h x (List.mem_cons_of_mem r hx)
    have hhead : (U.map (fun u => vendasTotal (r :: rs) u)).sum
        = (U.map (fun u => (if r.coleta = u then r.valorCte else 0) + vendasTotal rs u)).sum := by
      congr 1
      apply List.map_congr_left
      intro u _
      unfold vendasTotal
      by_cases hc : r.coleta = u
      · simp [List.filter, hc]
      · simp [List.filter, hc]
    rw [hhead, sum_map_add_q, sum_ite_eq_mem_q _ _ U hU, ih hrs]
    by_cases hc : r.coleta ≠ ""
    · rw [if_pos (hr.mpr hc)]
      have : List.filter (fun x => decide (x.coleta ≠ "")) (r :: rs)
          = r :: List.filter (fun x => decide (x.coleta ≠ "")) rs := by
        simp [List.filter, hc]
      rw [this]
      simp
    · have hc0 : r.coleta = "" := not_not.mp hc
      rw [if_neg (fun hmem => hc (hr.mp hmem))]
      have : List.filter (fun x => decide (x.coleta ≠ "")) (r :: rs)
          = List.filter (fun x => decide (x.coleta ≠ "")) rs := by
        simp [List.filter, hc0]
      rw [this]
      simp

/-- C3: the per-unit sales totals over the unit universe sum to the sum
    of `valorCte` over the records with a non-empty pickup unit — no
    record is counted under two units, none with a pickup unit is
    dropped. -/
theorem c3_sales_aggregation_invariant (data : List CteData) :
    ((unitUniverse data).map (fun u => vendasTotal data u)).sum
      = ((data.filter (fun r => r.coleta ≠ "")).map (fun r => r.valorCte)).sum := by
  apply sum_vendas_over_units
  · exact unitUniverseAux_nodup data [] List.nodup_nil
  · intro r hr
    rw [unitUniverse, mem_unitUniverseAux]
    constructor
    · rintro (hx | ⟨hne, _⟩)
      · exact absurd hx (List.not_mem_nil _)
      · exact hne
    · intro hne
      exact Or.inr ⟨hne, r, hr, Or.inl rfl⟩

theorem mem_trimWs {l : List Char} {c : Char} (h : c ∈ trimWs l) : c ∈ l := by
  unfold trimWs at h
  rw [List.mem_reverse] at h
  have h1 : c ∈ (l.dropWhile Char.isWhitespace).reverse :=
    (List.dropWhile_sublist _).mem h
  rw [List.mem_reverse] at h1
  exact (List.dropWhile_sublist _).mem h1

theorem mem_replaceFirst {l : List Char} {a b c : Char} (h : c ∈ replaceFirst l a b) :
    c ∈ l ∨ c = b := by
  induction l with
  | nil => exact absurd h (List.not_mem_nil c)
  | cons d cs ih =>
    unfold replaceFirst at h
    by_cases hd : d = a
    · rw [if_pos hd] at h
      rcases List.mem_cons.mp h with hc | hc
      · exact Or.inr hc
      · exact Or.inl (List.mem_cons_of_mem d hc)
    · rw [if_neg hd] at h
      rcases List.mem_cons.mp h with hc | hc
      · exact Or.inl (hc ▸ List.mem_cons_self d cs)
      · rcases ih hc with hc2 | hc2
        · exact Or.inl (List.mem_cons_of_mem d hc2)
        · exact Or.inr hc2

theorem currencyClean_no_minus {s : String} (h : '-' ∉ s.data) : '-' ∉ currencyClean s := by
  unfold currencyClean
  have ht : '-' ∉ trimWs s.data := fun hm => h (mem_trimWs hm)
  by_cases hc : ',' ∈ trimWs s.data
  · rw [if_pos hc]
    intro hm
    have hm2 := List.mem_of_mem_filter hm
    rcases mem_replaceFirst hm2 with hm3 | hm3
    · exact ht (List.mem_of_mem_filter hm3)
    · exact absurd hm3 (by decide)
  · rw [if_neg hc]
    intro hm
    exact ht (List.mem_of_mem_filter hm)

theorem parseFloatMag_nonneg (l : List Char) : 0 ≤ (parseFloatMag l).getD 0 := by
  unfold parseFloatMag
  by_cases h : (l.takeWhile Char.isDigit = [])
      ∧ (match l.dropWhile Char.isDigit with
         | c :: r => if c = '.' then r.takeWhile Char.isDigit else []
         | [] => []) = []
  · rw [if_pos h]
    exact le_refl 0
  · rw [if_neg h]
    have h1 : (0 : ℚ) ≤ (digitsVal (l.takeWhile Char.isDigit) : ℚ) := Nat.cast_nonneg _
    have h2 : (0 : ℚ) ≤ (digitsVal (match l.dropWhile Char.isDigit with
         | c :: r => if c = '.' then r.takeWhile Char.isDigit else []
         | [] => []) : ℚ) := Nat.cast_nonneg _
    have h3 : (0 : ℚ) < (10 : ℚ) ^ (match l.dropWhile Char.isDigit with
         | c :: r => if c = '.' then r.takeWhile Char.isDigit else []
         | [] => []).length := by positivity
    show (0 : ℚ) ≤ _ + _ / _
    have := div_nonneg h2 (le_of_lt h3)
    exact add_nonneg h1 this

theorem jsParseFloat_nonneg {l : List Char} (h : '-' ∉ l) : 0 ≤ (jsParseFloat l).getD 0 := by
  unfold jsParseFloat
  have hl1 : '-' ∉ l.dropWhile Char.isWhitespace :=
    fun hm => h ((List.dropWhile_sublist _).mem hm)
  cases hd : l.dropWhile Char.isWhitespace with
  | nil => exact le_refl 0
  | cons c rest =>
    rw [hd] at hl1
    have hc : ¬ c = '-' := fun e => hl1 (e ▸ List.mem_cons_self c rest)
    show 0 ≤ (if c = '-' then Option.map (fun q => -q) (parseFloatMag rest)
        else if c = '+' then parseFloatMag rest else parseFloatMag (c :: rest)).getD 0
    rw [if_neg hc]
    by_cases hp : c = '+'
    · rw [if_pos hp]
      exact parseFloatMag_nonneg rest
    · rw [if_neg hp]
      exact parseFloatMag_nonneg (c :: rest)

theorem parseCurrency_nonneg {s : String} (h : '-' ∉ s.data) : 0 ≤ parseCurrency s := by
  unfold parseCurrency
  by_cases h0 : s.data = []
  · rw [if_pos h0]
  · rw [if_neg h0]
    exact jsParseFloat_nonneg (currencyClean_no_minus h)

/-- C9 (amended): the normalized record's `valorCte` is
    `parseCurrency` of the resolved value text, which is non-negative
    whenever that text contains no `'-'`; a leading minus in the source
    value produces a negative `valorCte`. -/
theorem c9_valor_cte_nonneg (fields : List String) (row : RawRow)
    (h : '-' ∉ (getValue fields row valorKeys 11).data) :
    0 ≤ (normalizeBaseRow fields row).valorCte := by
  show 0 ≤ parseCurrency
      (if getValue fields row valorKeys 11 = "" then "0" else getValue fields row valorKeys 11)
  by_cases hv : getValue fields row valorKeys 11 = ""
  · rw [if_pos hv]
    rw [show parseCurrency "0" = 0 from by with_unfolding_all rfl]
  · rw [if_neg hv]
    exact parseCurrency_nonneg h

/-- C9 witness: a row whose value text `"10,50"` has no minus sign
    normalizes to a non-negative `valorCte`. -/
theorem c9_valor_cte_nonneg_witness :
    0 ≤ (normalizeBaseRow [] [("VALOR", "10,50")]).valorCte :=
  c9_valor_cte_nonneg [] [("VALOR", "10,50")] (by decide)

/-- C9 counterexample: a raw row carrying `"-1"` in its value column
    survives normalization with the negative `valorCte = -1`. -/
theorem c9_negative_value_counterexample :
    (normalizeBaseRow [] [("VALOR_CTE", "-1")]).valorCte < 0 := by
  with_unfolding_all decide

end Painel
